import Mathlib

/-!
Verification development for the Kraken buying bot (src/main.py).

The core allocation logic of the program is embedded shallowly:
Python floats are modelled as exact rationals (the spec mandates exact
real comparisons at bracket edges), Python `Optional` as `Option`,
the spreadsheet rows as lists of strings, and the external order
executor as a function parameter returning `Except`.
-/

namespace KrakenBuyer

/-- Model of Python `str.strip()` on the underlying character list:
drop whitespace from the front, then from the back. -/
def stripList (cs : List Char) : List Char :=
  List.rdropWhile Char.isWhitespace (List.dropWhile Char.isWhitespace cs)

/-- Model of Python `str.strip()` on strings. -/
def pyStrip (s : String) : String :=
  String.mk (stripList s.data)

/-- Model of Python `str.upper()`, characterwise uppercasing. -/
def pyUpper (s : String) : String :=
  String.mk (s.data.map Char.toUpper)

/-- Numeric value of a digit list, most significant first. -/
def natOfDigits (ds : List Char) : ℕ :=
  ds.foldl (fun a c => 10 * a + (c.toNat - 48)) 0

/-- Exponent part of a Python float literal after the letter e:
an optional sign followed by at least one digit, consuming the rest. -/
def parseExpDigits (cs : List Char) : Option ℤ :=
  let sgn : Bool × List Char :=
    match cs with
    | '+' :: t => (false, t)
    | '-' :: t => (true, t)
    | t => (false, t)
  if sgn.2 ≠ [] ∧ sgn.2.all Char.isDigit then
    some (if sgn.1 then -(natOfDigits sgn.2 : ℤ) else (natOfDigits sgn.2 : ℤ))
  else none

/-- Model of Python `float(s)` restricted to finite decimal literals
(optional sign, digits with an optional point, optional exponent);
infinities, NaN and digit-group underscores are outside the rational
model and yield `none`. -/
def pyFloat (s : String) : Option ℚ :=
  let p1 : Bool × List Char :=
    match s.data with
    | '+' :: t => (false, t)
    | '-' :: t => (true, t)
    | t => (false, t)
  let ipr := p1.2.span Char.isDigit
  let fpr : List Char × List Char :=
    match ipr.2 with
    | '.' :: t => t.span Char.isDigit
    | _ => ([], ipr.2)
  let hasDot : Bool :=
    match ipr.2 with
    | '.' :: _ => true
    | _ => false
  if ipr.1 = [] ∧ (¬ hasDot ∨ fpr.1 = []) then none
  else
    let rest := if hasDot then fpr.2 else ipr.2
    let fdigits := if hasDot then fpr.1 else []
    let mant : ℚ := (natOfDigits ipr.1 : ℚ) + (natOfDigits fdigits : ℚ) / ((10 : ℚ) ^ fdigits.length)
    let em : Option ℚ :=
      match rest with
      | [] => some mant
      | 'e' :: t => (parseExpDigits t).map (fun e => mant * (10 : ℚ) ^ e)
      | 'E' :: t => (parseExpDigits t).map (fun e => mant * (10 : ℚ) ^ e)
      | _ => none
    em.map (fun m => if p1.1 then -m else m)

/-- Embedding of parse_float (src/main.py lines 64-73): None passes
through, the string is stripped, an empty result or a parse failure
yields None, otherwise the parsed value. -/
def parse_float (value : Option String) : Option ℚ :=
  match value with
  | none => none
  | some v =>
    let v := pyStrip v
    if v = "" then none
    else pyFloat v

/-- Embedding of determine_tier_fraction (src/main.py lines 76-97). -/
def determine_tier_fraction (pct_down : ℚ) : Option ℚ :=
  let d := |pct_down|
  if 0 ≤ d ∧ d ≤ 25 then some (5/100)
  else if 26 ≤ d ∧ d ≤ 50 then some (10/100)
  else if 51 ≤ d ∧ d ≤ 75 then some (15/100)
  else if 76 ≤ d ∧ d ≤ 999/10 then some (20/100)
  else none

/-- Embedding of the ICON_MULTIPLIERS dictionary (src/main.py lines
100-106) as a lookup function. -/
def ICON_MULTIPLIERS (icon : String) : Option ℚ :=
  if icon = "💎" then some 1
  else if icon = "💥" then some (9/10)
  else if icon = "🚀" then some (8/10)
  else if icon = "✨" then some (7/10)
  else if icon = "📊" then some (6/10)
  else none

/-- Embedding of sentiment_multiplier (src/main.py lines 109-125). -/
def sentiment_multiplier (sent_str : Option String) : Option ℚ :=
  match sent_str with
  | none => none
  | some s =>
    let s := pyStrip s
    if s = "" then none
    else
      match parse_float (some s) with
      | some val => if 0 < val then some val else none
      | none => none

/-- Reasons a row is skipped, one per skip branch of the main loop
(src/main.py lines 188-259) plus the minimum-notional skip. -/
inductive SkipReason where
  | tooFewColumns : SkipReason
  | missingRequired : SkipReason
  | iconNotAllowed : SkipReason
  | invalidNumeric : SkipReason
  | nonPositivePrice : SkipReason
  | noTier : SkipReason
  | sentimentMissing : SkipReason
  | belowMin : SkipReason
deriving DecidableEq

/-- The numeric fields of a row that survived validation
(src/main.py lines 188-238). -/
structure ParsedRow where
  symbol : String
  price : ℚ
  tier_fraction : ℚ
  icon_mult : ℚ
  ma_ratio : ℚ
  sent_mult : ℚ
deriving DecidableEq

/-- One record of the orders_placed list (src/main.py lines 280-287). -/
structure PlacedOrder where
  row : ℕ
  symbol : String
  market_symbol : String
  notional : ℚ
  amount : ℚ
  order_id : String
deriving DecidableEq

/-- The sentiment cell of a raw row (src/main.py line 199). -/
def sentCell (row : List String) : String :=
  if 15 < row.length then row.getD 15 "" else ""

/-- Row validation, the straight-line skip checks of the main loop
(src/main.py lines 188-238): column count, required fields, icon
membership, numeric parsing, positive price, tier bracket, sentiment
gate, in source order. -/
def validateRow (row : List String) : Except SkipReason ParsedRow :=
  if row.length ≤ 15 then .error .tooFewColumns
  else
    let symbol := pyUpper (pyStrip (row.getD 0 ""))
    let price_str := row.getD 1 ""
    let pct_down_str := row.getD 2 ""
    let long_ma_str := row.getD 8 ""
    let icon := pyStrip (row.getD 14 "")
    if symbol = "" || price_str = "" || pct_down_str = "" || long_ma_str = "" || icon = "" then
      .error .missingRequired
    else
      match ICON_MULTIPLIERS icon with
      | none => .error .iconNotAllowed
      | some icon_mult =>
        match parse_float (some price_str), parse_float (some pct_down_str),
            parse_float (some long_ma_str) with
        | some price, some pct_down, some long_ma =>
          if price ≤ 0 then .error .nonPositivePrice
          else
            match determine_tier_fraction pct_down with
            | none => .error .noTier
            | some tier_fraction =>
              let ma_ratio := long_ma / price
              match sentiment_multiplier (some (sentCell row)) with
              | none => .error .sentimentMissing
              | some sent_mult =>
                .ok ⟨symbol, price, tier_fraction, icon_mult, ma_ratio, sent_mult⟩
        | _, _, _ => .error .invalidNumeric

/-- The external order executor (ccxt create_market_buy_order), a
collaborator outside the core: given the sheet row number, the market
symbol and the base amount it returns an order id or an error text. -/
abbrev Exec := ℕ → String → ℚ → Except String String

/-- What one loop iteration does with a row
(continue skipping, break, or record a failure or a placed order). -/
inductive StepResult where
  | skip : SkipReason → StepResult
  | stop : StepResult
  | failed : String → StepResult
  | placed : PlacedOrder → StepResult
deriving DecidableEq

/-- One iteration of the main loop (src/main.py lines 188-296):
validation, then the remaining-funds break check (line 241), sizing
with the hard cap (lines 246-252), the minimum-notional skip
(lines 254-259), and the order attempt (lines 277-296). -/
def processRow (minN : ℚ) (bc : String) (ex : Exec) (funds : ℚ) (idx : ℕ)
    (row : List String) : StepResult :=
  match validateRow row with
  | .error r => .skip r
  | .ok pr =>
    if funds ≤ 0 then .stop
    else
      let order_notional :=
        min (funds * pr.tier_fraction * pr.icon_mult * pr.ma_ratio * pr.sent_mult) funds
      if order_notional < minN then .skip .belowMin
      else
        let amount_base := order_notional / pr.price
        let market_symbol := pr.symbol ++ "/" ++ bc
        match ex idx market_symbol amount_base with
        | .ok oid => .placed ⟨idx, pr.symbol, market_symbol, order_notional, amount_base, oid⟩
        | .error e => .failed e

/-- Observable outcome of one row in a run: the per-row trace printed
by the loop together with the orders_placed record. -/
inductive RowOutcome where
  | skipped : ℕ → SkipReason → RowOutcome
  | failed : ℕ → String → RowOutcome
  | placed : PlacedOrder → RowOutcome
deriving DecidableEq

/-- The main loop over the data rows (src/main.py lines 188-296),
threading remaining_funds; returns the row outcomes in scan order and
the final remaining_funds. -/
def runRows (minN : ℚ) (bc : String) (ex : Exec) (funds : ℚ) (idx : ℕ) :
    List (List String) → List RowOutcome × ℚ
  | [] => ([], funds)
  | row :: rest =>
    match processRow minN bc ex funds idx row with
    | .skip r =>
      ((RowOutcome.skipped idx r) :: (runRows minN bc ex funds (idx + 1) rest).1,
        (runRows minN bc ex funds (idx + 1) rest).2)
    | .stop => ([], funds)
    | .failed e =>
      ((RowOutcome.failed idx e) :: (runRows minN bc ex funds (idx + 1) rest).1,
        (runRows minN bc ex funds (idx + 1) rest).2)
    | .placed p =>
      ((RowOutcome.placed p) :: (runRows minN bc ex (funds - p.notional) (idx + 1) rest).1,
        (runRows minN bc ex (funds - p.notional) (idx + 1) rest).2)

/-- The allocation pass of main (src/main.py lines 170-296): if the
fetched free balance is not positive the program exits before the loop
(lines 173-175), otherwise the loop runs from sheet row number 2. -/
def run (minN : ℚ) (bc : String) (ex : Exec) (freeFunds : ℚ)
    (dataRows : List (List String)) : List RowOutcome × ℚ :=
  if freeFunds ≤ 0 then ([], freeFunds)
  else runRows minN bc ex freeFunds 2 dataRows

/-- The orders_placed records among a run's outcomes. -/
def ordersPlaced (outcomes : List RowOutcome) : List PlacedOrder :=
  outcomes.filterMap fun o =>
    match o with
    | .placed p => some p
    | _ => none

/-! Helper lemmas. -/

theorem stripList_idem (cs : List Char) : stripList (stripList cs) = stripList cs := by
  unfold stripList
  have hdrop :
      List.dropWhile Char.isWhitespace
          (List.rdropWhile Char.isWhitespace (List.dropWhile Char.isWhitespace cs)) =
        List.rdropWhile Char.isWhitespace (List.dropWhile Char.isWhitespace cs) := by
    rw [List.dropWhile_eq_self_iff]
    intro hl
    have hpre := List.rdropWhile_prefix Char.isWhitespace
      (List.dropWhile Char.isWhitespace cs)
    have hlen : 0 < (List.dropWhile Char.isWhitespace cs).length :=
      lt_of_lt_of_le hl hpre.length_le
    have hget :
        (List.rdropWhile Char.isWhitespace (List.dropWhile Char.isWhitespace cs))[0] =
          (List.dropWhile Char.isWhitespace cs)[0] := hpre.getElem hl
    have hnot := List.dropWhile_get_zero_not Char.isWhitespace cs hlen
    simp only [List.get_eq_getElem] at hnot ⊢
    rw [hget]
    exact hnot
  rw [hdrop, List.rdropWhile_idempotent]

theorem pyStrip_idem (s : String) : pyStrip (pyStrip s) = pyStrip s :=
  congrArg String.mk (stripList_idem s.data)

theorem parse_float_pyStrip (s : String) :
    parse_float (some (pyStrip s)) = parse_float (some s) := by
  simp only [parse_float, pyStrip_idem]

/-- sentiment_multiplier rejects exactly the strings whose parse is
absent or non-positive. -/
theorem sentiment_multiplier_none_iff (s : String) :
    sentiment_multiplier (some s) = none ↔
      parse_float (some s) = none ∨ ∃ v, parse_float (some s) = some v ∧ v ≤ 0 := by
  simp only [sentiment_multiplier]
  by_cases he : pyStrip s = ""
  · have hn : parse_float (some s) = none := by simp [parse_float, he]
    simp [he, hn]
  · rw [if_neg he, parse_float_pyStrip]
    cases hp : parse_float (some s) with
    | none => simp
    | some v =>
      dsimp only
      by_cases hv : 0 < v
      · rw [if_pos hv]
        simp only [reduceCtorEq, false_iff, not_or]
        refine ⟨by simp, ?_⟩
        rintro ⟨w, hw, hwle⟩
        rw [Option.some.injEq] at hw
        subst hw
        linarith
      · rw [if_neg hv]
        simp only [true_iff]
        exact Or.inr ⟨v, rfl, not_lt.mp hv⟩

/-- A validated row carries exactly the sentiment multiplier of its
sentiment cell. -/
theorem validateRow_ok_sent {row : List String} {pr : ParsedRow}
    (h : validateRow row = .ok pr) :
    sentiment_multiplier (some (sentCell row)) = some pr.sent_mult := by
  simp only [validateRow] at h
  repeat' split at h
  all_goals try cases h
  all_goals assumption

/-- A row whose sentiment gate fails never validates. -/
theorem validateRow_sent_none {row : List String}
    (h : sentiment_multiplier (some (sentCell row)) = none) :
    ∃ r, validateRow row = .error r := by
  cases hv : validateRow row with
  | error r => exact ⟨r, rfl⟩
  | ok pr =>
    rw [validateRow_ok_sent hv] at h
    cases h

theorem processRow_of_validate_error {minN funds : ℚ} {bc : String} {ex : Exec} {idx : ℕ}
    {row : List String} {r : SkipReason} (h : validateRow row = .error r) :
    processRow minN bc ex funds idx row = .skip r := by
  simp only [processRow, h]

theorem processRow_placed_eq {minN funds : ℚ} {bc : String} {ex : Exec} {idx : ℕ}
    {row : List String} {p : PlacedOrder}
    (h : processRow minN bc ex funds idx row = .placed p) :
    ∃ pr, validateRow row = .ok pr ∧ ¬ funds ≤ 0 ∧
      ¬ min (funds * pr.tier_fraction * pr.icon_mult * pr.ma_ratio * pr.sent_mult) funds < minN ∧
      p = ⟨idx, pr.symbol, pr.symbol ++ "/" ++ bc,
        min (funds * pr.tier_fraction * pr.icon_mult * pr.ma_ratio * pr.sent_mult) funds,
        min (funds * pr.tier_fraction * pr.icon_mult * pr.ma_ratio * pr.sent_mult) funds / pr.price,
        p.order_id⟩ ∧
      ex idx (pr.symbol ++ "/" ++ bc)
        (min (funds * pr.tier_fraction * pr.icon_mult * pr.ma_ratio * pr.sent_mult) funds / pr.price) =
        .ok p.order_id := by
  simp only [processRow] at h
  split at h
  · cases h
  next pr hv =>
    split at h
    · cases h
    next hf =>
      split at h
      · cases h
      next hm =>
        split at h
        next oid hex => cases h; exact ⟨pr, hv, hf, hm, rfl, hex⟩
        next e hex => cases h

theorem processRow_failed_eq {minN funds : ℚ} {bc : String} {ex : Exec} {idx : ℕ}
    {row : List String} {e : String}
    (h : processRow minN bc ex funds idx row = .failed e) :
    ∃ pr, validateRow row = .ok pr ∧ ¬ funds ≤ 0 ∧
      ¬ min (funds * pr.tier_fraction * pr.icon_mult * pr.ma_ratio * pr.sent_mult) funds < minN ∧
      ex idx (pr.symbol ++ "/" ++ bc)
        (min (funds * pr.tier_fraction * pr.icon_mult * pr.ma_ratio * pr.sent_mult) funds / pr.price) =
        .error e := by
  simp only [processRow] at h
  split at h
  · cases h
  next pr hv =>
    split at h
    · cases h
    next hf =>
      split at h
      · cases h
      next hm =>
        split at h
        next oid hex => cases h
        next e2 hex => cases h; exact ⟨pr, hv, hf, hm, hex⟩

theorem processRow_placed_bounds {minN funds : ℚ} {bc : String} {ex : Exec} {idx : ℕ}
    {row : List String} {p : PlacedOrder}
    (h : processRow minN bc ex funds idx row = .placed p) :
    minN ≤ p.notional ∧ p.notional ≤ funds ∧ 0 < funds ∧ p.row = idx := by
  obtain ⟨pr, hv, hf, hm, hp, hex⟩ := processRow_placed_eq h
  have h1 : p.notional =
      min (funds * pr.tier_fraction * pr.icon_mult * pr.ma_ratio * pr.sent_mult) funds := by
    rw [hp]
  have h2 : p.row = idx := by rw [hp]
  rw [h1, h2]
  exact ⟨not_lt.mp hm, min_le_right _ _, not_le.mp hf, rfl⟩

theorem runRows_cons_skip {minN funds : ℚ} {bc : String} {ex : Exec} {idx : ℕ}
    {row : List String} {rest : List (List String)} {r : SkipReason}
    (h : processRow minN bc ex funds idx row = .skip r) :
    runRows minN bc ex funds idx (row :: rest) =
      (RowOutcome.skipped idx r :: (runRows minN bc ex funds (idx + 1) rest).1,
        (runRows minN bc ex funds (idx + 1) rest).2) := by
  simp only [runRows, h]

theorem runRows_cons_stop {minN funds : ℚ} {bc : String} {ex : Exec} {idx : ℕ}
    {row : List String} {rest : List (List String)}
    (h : processRow minN bc ex funds idx row = .stop) :
    runRows minN bc ex funds idx (row :: rest) = ([], funds) := by
  simp only [runRows, h]

theorem runRows_cons_failed {minN funds : ℚ} {bc : String} {ex : Exec} {idx : ℕ}
    {row : List String} {rest : List (List String)} {e : String}
    (h : processRow minN bc ex funds idx row = .failed e) :
    runRows minN bc ex funds idx (row :: rest) =
      (RowOutcome.failed idx e :: (runRows minN bc ex funds (idx + 1) rest).1,
        (runRows minN bc ex funds (idx + 1) rest).2) := by
  simp only [runRows, h]

theorem runRows_cons_placed {minN funds : ℚ} {bc : String} {ex : Exec} {idx : ℕ}
    {row : List String} {rest : List (List String)} {p : PlacedOrder}
    (h : processRow minN bc ex funds idx row = .placed p) :
    runRows minN bc ex funds idx (row :: rest) =
      (RowOutcome.placed p :: (runRows minN bc ex (funds - p.notional) (idx + 1) rest).1,
        (runRows minN bc ex (funds - p.notional) (idx + 1) rest).2) := by
  simp only [runRows, h]


/-- Funds bookkeeping along a whole scan: the pool never increases,
never becomes negative, and the total decrease is exactly the sum of
the notionals of the successfully placed orders. -/
theorem runRows_funds (minN : ℚ) (bc : String) (ex : Exec) (hmin : 0 ≤ minN) :
    ∀ (rows : List (List String)) (idx : ℕ) (funds : ℚ), 0 ≤ funds →
      (runRows minN bc ex funds idx rows).2 ≤ funds ∧
      0 ≤ (runRows minN bc ex funds idx rows).2 ∧
      funds = ((ordersPlaced (runRows minN bc ex funds idx rows).1).map PlacedOrder.notional).sum
        + (runRows minN bc ex funds idx rows).2 := by
  intro rows
  induction rows with
  | nil =>
    intro idx funds hf
    simp [runRows, ordersPlaced, hf]
  | cons row rest ih =>
    intro idx funds hf
    cases hstep : processRow minN bc ex funds idx row with
    | skip r =>
      rw [runRows_cons_skip hstep]
      have h2 := ih (idx + 1) funds hf
      simpa [ordersPlaced] using h2
    | stop =>
      rw [runRows_cons_stop hstep]
      simp [ordersPlaced, hf]
    | failed e =>
      rw [runRows_cons_failed hstep]
      have h2 := ih (idx + 1) funds hf
      simpa [ordersPlaced] using h2
    | placed p =>
      rw [runRows_cons_placed hstep]
      obtain ⟨hb1, hb2, hb3, hb4⟩ := processRow_placed_bounds hstep
      have hf2 : 0 ≤ funds - p.notional := by linarith
      obtain ⟨ha, hb, hc⟩ := ih (idx + 1) (funds - p.notional) hf2
      refine ⟨by linarith, hb, ?_⟩
      simp only [ordersPlaced, List.filterMap_cons, List.map_cons, List.sum_cons]
      simp only [ordersPlaced] at hc
      linarith

/-- Every order placed during a scan meets the minimum notional. -/
theorem runRows_placed_min (minN : ℚ) (bc : String) (ex : Exec) :
    ∀ (rows : List (List String)) (idx : ℕ) (funds : ℚ) (p : PlacedOrder),
      p ∈ ordersPlaced (runRows minN bc ex funds idx rows).1 → minN ≤ p.notional := by
  intro rows
  induction rows with
  | nil =>
    intro idx funds p hp
    simp [runRows, ordersPlaced] at hp
  | cons row rest ih =>
    intro idx funds p hp
    cases hstep : processRow minN bc ex funds idx row with
    | skip r =>
      rw [runRows_cons_skip hstep] at hp
      simp only [ordersPlaced, List.filterMap_cons] at hp
      exact ih (idx + 1) funds p hp
    | stop =>
      rw [runRows_cons_stop hstep] at hp
      simp [ordersPlaced] at hp
    | failed e =>
      rw [runRows_cons_failed hstep] at hp
      simp only [ordersPlaced, List.filterMap_cons] at hp
      exact ih (idx + 1) funds p hp
    | placed q =>
      rw [runRows_cons_placed hstep] at hp
      simp only [ordersPlaced, List.filterMap_cons, List.mem_cons] at hp
      rcases hp with hp | hp
      · subst hp
        exact (processRow_placed_bounds hstep).1
      · exact ih (idx + 1) (funds - q.notional) p hp


deriving instance DecidableEq for Except

/-! Concrete fixtures for witnesses and counterexamples. -/

/-- An executor that always confirms with order id "OID". -/
def exOK : Exec := fun _ _ _ => .ok "OID"

/-- An executor that always signals an exchange-level failure. -/
def exFail : Exec := fun _ _ _ => .error "insufficient funds"

/-- Scenario A row: price 100, 10 percent down, long MA 100, top icon,
sentiment 1. -/
def rowA : List String :=
  ["ETH", "100", "-10", "", "", "", "", "", "100", "", "", "", "", "", "💎", "1"]

/-- Scenario B row: tier 0.20 and MA ratio 15, so the raw product from
a pool of 100 is 300. -/
def rowB : List String :=
  ["ADA", "1", "-80", "", "", "", "", "", "15", "", "", "", "", "", "💎", "1"]

/-- A row whose raw product far exceeds the pool, consuming it all. -/
def rowFull : List String :=
  ["BTC", "1", "-80", "", "", "", "", "", "100", "", "", "", "", "", "💎", "1"]

/-- A row whose icon is outside the allowed set. -/
def rowBadIcon : List String :=
  ["ETH", "1", "-10", "", "", "", "", "", "1", "", "", "", "", "", "🧊", "1"]

/-- A fully valid row. -/
def rowGood : List String :=
  ["SOL", "1", "-10", "", "", "", "", "", "1", "", "", "", "", "", "💎", "1"]

/-- A row that is valid except for an empty sentiment cell. -/
def rowNoSent : List String :=
  ["ETH", "100", "-10", "", "", "", "", "", "100", "", "", "", "", "", "💎", ""]

/-- The order produced by rowA under exOK from a pool of 1000. -/
def pA : PlacedOrder := ⟨2, "ETH", "ETH/USD", 50, 1/2, "OID"⟩

/-- The capped order produced by rowB under exOK from a pool of 100. -/
def pB : PlacedOrder := ⟨2, "ADA", "ADA/USD", 100, 100, "OID"⟩

/-- The pool-consuming order of rowFull under exOK from a pool of 100. -/
def pFull : PlacedOrder := ⟨2, "BTC", "BTC/USD", 100, 100, "OID"⟩

/-! Claims. -/

/-- C1 (amended): tier classification is a step function of the
drawdown magnitude over the four brackets [0,25], [26,50], [51,75],
[76,99.9] returning 0.05, 0.10, 0.15, 0.20, and it is undefined on the
gaps (25,26), (50,51), (75,76) and above 99.9. -/
theorem C1_tier_amended (p : ℚ) :
    (|p| ≤ 25 → determine_tier_fraction p = some (5/100)) ∧
    (26 ≤ |p| ∧ |p| ≤ 50 → determine_tier_fraction p = some (10/100)) ∧
    (51 ≤ |p| ∧ |p| ≤ 75 → determine_tier_fraction p = some (15/100)) ∧
    (76 ≤ |p| ∧ |p| ≤ 999/10 → determine_tier_fraction p = some (20/100)) ∧
    (25 < |p| ∧ |p| < 26 → determine_tier_fraction p = none) ∧
    (50 < |p| ∧ |p| < 51 → determine_tier_fraction p = none) ∧
    (75 < |p| ∧ |p| < 76 → determine_tier_fraction p = none) ∧
    (999/10 < |p| → determine_tier_fraction p = none) := by
  have h0 : 0 ≤ |p| := abs_nonneg p
  simp only [determine_tier_fraction]
  refine ⟨fun h => ?_, fun h => ?_, fun h => ?_, fun h => ?_,
    fun h => ?_, fun h => ?_, fun h => ?_, fun h => ?_⟩
  · rw [if_pos ⟨h0, h⟩]
  · rw [if_neg (by rintro ⟨-, h2⟩; linarith [h.1]), if_pos h]
  · rw [if_neg (by rintro ⟨-, h2⟩; linarith [h.1]),
      if_neg (by rintro ⟨-, h2⟩; linarith [h.1]), if_pos h]
  · rw [if_neg (by rintro ⟨-, h2⟩; linarith [h.1]),
      if_neg (by rintro ⟨-, h2⟩; linarith [h.1]),
      if_neg (by rintro ⟨-, h2⟩; linarith [h.1]), if_pos h]
  · rw [if_neg (by rintro ⟨-, h2⟩; linarith [h.1]),
      if_neg (by rintro ⟨h2, -⟩; linarith [h.2]),
      if_neg (by rintro ⟨h2, -⟩; linarith [h.2]),
      if_neg (by rintro ⟨h2, -⟩; linarith [h.2])]
  · rw [if_neg (by rintro ⟨-, h2⟩; linarith [h.1]),
      if_neg (by rintro ⟨-, h2⟩; linarith [h.1]),
      if_neg (by rintro ⟨h2, -⟩; linarith [h.2]),
      if_neg (by rintro ⟨h2, -⟩; linarith [h.2])]
  · rw [if_neg (by rintro ⟨-, h2⟩; linarith [h.1]),
      if_neg (by rintro ⟨-, h2⟩; linarith [h.1]),
      if_neg (by rintro ⟨-, h2⟩; linarith [h.1]),
      if_neg (by rintro ⟨h2, -⟩; linarith [h.2])]
  · rw [if_neg (by rintro ⟨-, h2⟩; linarith),
      if_neg (by rintro ⟨-, h2⟩; linarith),
      if_neg (by rintro ⟨-, h2⟩; linarith),
      if_neg (by rintro ⟨-, h2⟩; linarith)]

unseal Rat.add Rat.mul Rat.inv Rat.sub Rat.ofScientific in
/-- C1 counterexample: the brackets are not contiguous; at magnitude
25.0000001 the code returns no tier at all, not 0.10 as claimed. -/
theorem C1_cex :
    determine_tier_fraction (25.0000001 : ℚ) = none ∧
    ¬ determine_tier_fraction (25.0000001 : ℚ) = some (10/100) := by
  decide

/-- Witness for C1 at the boundary 25 and at 100. -/
theorem C1_tier_amended_witness :
    determine_tier_fraction 25 = some (5/100) ∧ determine_tier_fraction 100 = none :=
  ⟨(C1_tier_amended 25).1 (by norm_num [abs_of_nonneg]),
    (C1_tier_amended 100).2.2.2.2.2.2.2 (by norm_num [abs_of_nonneg])⟩


/-- C2: an order that is placed never spends more than the funds
remaining before its row; when the raw tier-and-multiplier product
reaches or exceeds the pool, the order is sized to exactly the pool. -/
theorem C2_order_capped (minN : ℚ) (bc : String) (ex : Exec) (funds : ℚ) (idx : ℕ)
    (row : List String) (p : PlacedOrder)
    (h : processRow minN bc ex funds idx row = .placed p) :
    p.notional ≤ funds ∧
    (∀ pr, validateRow row = Except.ok pr →
      funds ≤ funds * pr.tier_fraction * pr.icon_mult * pr.ma_ratio * pr.sent_mult →
      p.notional = funds) := by
  obtain ⟨pr, hv, hf, hm, hp, hex⟩ := processRow_placed_eq h
  have h1 : p.notional =
      min (funds * pr.tier_fraction * pr.icon_mult * pr.ma_ratio * pr.sent_mult) funds := by
    rw [hp]
  constructor
  · rw [h1]
    exact min_le_right _ _
  · intro pr2 hv2 hge
    rw [hv] at hv2
    cases hv2
    rw [h1, min_eq_right hge]

unseal Rat.add Rat.mul Rat.inv Rat.sub in
/-- Witness for C2 at Scenario B: pool 100, raw product 300, order
capped to exactly 100. -/
theorem C2_order_capped_witness :
    processRow 5 "USD" exOK 100 2 rowB = .placed pB ∧
    pB.notional ≤ 100 ∧ pB.notional = 100 := by
  have hpl : processRow 5 "USD" exOK 100 2 rowB = .placed pB := by decide
  have hc := C2_order_capped 5 "USD" exOK 100 2 rowB pB hpl
  refine ⟨hpl, hc.1, hc.2 ⟨"ADA", 1, 1/5, 1, 15, 1⟩ ?_ (by norm_num)⟩
  decide

/-- C3: across any allocation pass with a non-negative minimum
notional, remaining funds never increase, never go below zero, and the
total decrease is exactly the sum of the notionals of the successfully
placed orders. -/
theorem C3_funds_conservation (minN : ℚ) (bc : String) (ex : Exec)
    (rows : List (List String)) (idx : ℕ) (funds : ℚ)
    (hmin : 0 ≤ minN) (hf : 0 ≤ funds) :
    (runRows minN bc ex funds idx rows).2 ≤ funds ∧
    0 ≤ (runRows minN bc ex funds idx rows).2 ∧
    funds - (runRows minN bc ex funds idx rows).2 =
      ((ordersPlaced (runRows minN bc ex funds idx rows).1).map PlacedOrder.notional).sum := by
  obtain ⟨h1, h2, h3⟩ := runRows_funds minN bc ex hmin rows idx funds hf
  exact ⟨h1, h2, by linarith⟩

/-- Witness for C3 on a concrete two-row pass. -/
theorem C3_funds_conservation_witness :
    (runRows 5 "USD" exOK 1000 2 [rowA, rowB]).2 ≤ 1000 ∧
    0 ≤ (runRows 5 "USD" exOK 1000 2 [rowA, rowB]).2 ∧
    1000 - (runRows 5 "USD" exOK 1000 2 [rowA, rowB]).2 =
      ((ordersPlaced (runRows 5 "USD" exOK 1000 2 [rowA, rowB]).1).map PlacedOrder.notional).sum :=
  C3_funds_conservation 5 "USD" exOK [rowA, rowB] 2 1000 (by norm_num) (by norm_num)

unseal Rat.add Rat.mul Rat.inv Rat.sub in
/-- C4 counterexample: the first row consumes the whole pool, yet the
following invalid row is still validated and recorded as skipped; the
scan only terminates at the next fully valid row. This refutes the
claim that no later row is validated once funds reach zero. -/
theorem C4_cex :
    (runRows 5 "USD" exOK 100 2 [rowFull]).2 = 0 ∧
    runRows 5 "USD" exOK 100 2 [rowFull, rowBadIcon, rowGood] =
      ([RowOutcome.placed pFull, RowOutcome.skipped 3 SkipReason.iconNotAllowed], 0) := by
  decide

/-- C4 (amended): with no funds before the pass, the loop is never
entered and the result is empty; once funds are non-positive, no order
is ever placed and funds never change, though rows failing validation
are still evaluated and recorded until the first fully valid row stops
the scan. -/
theorem C4_amended (minN : ℚ) (bc : String) (ex : Exec) (funds : ℚ) (idx : ℕ)
    (rows : List (List String)) (h : funds ≤ 0) :
    run minN bc ex funds rows = ([], funds) ∧
    (runRows minN bc ex funds idx rows).2 = funds ∧
    ordersPlaced (runRows minN bc ex funds idx rows).1 = [] := by
  refine ⟨by simp [run, h], ?_⟩
  induction rows generalizing idx with
  | nil => simp [runRows, ordersPlaced]
  | cons row rest ih =>
    cases hstep : processRow minN bc ex funds idx row with
    | skip r =>
      rw [runRows_cons_skip hstep]
      obtain ⟨ih1, ih2⟩ := ih (idx + 1)
      refine ⟨ih1, ?_⟩
      simpa [ordersPlaced] using ih2
    | stop =>
      rw [runRows_cons_stop hstep]
      simp [ordersPlaced]
    | failed e =>
      obtain ⟨pr, hv, hf, -⟩ := processRow_failed_eq hstep
      exact absurd h hf
    | placed p =>
      obtain ⟨pr, hv, hf, -⟩ := processRow_placed_eq hstep
      exact absurd h hf

/-- Witness for C4 as amended, with a zero pool. -/
theorem C4_amended_witness :
    run 5 "USD" exOK 0 [rowBadIcon, rowA] = ([], 0) ∧
    (runRows 5 "USD" exOK 0 2 [rowBadIcon, rowA]).2 = 0 ∧
    ordersPlaced (runRows 5 "USD" exOK 0 2 [rowBadIcon, rowA]).1 = [] :=
  C4_amended 5 "USD" exOK 0 2 [rowBadIcon, rowA] le_rfl


/-- C5: every placed order meets the configured minimum notional, and
a skipped row (in particular a below-minimum row) leaves remaining
funds unchanged while the scan continues. -/
theorem C5_min_notional (minN : ℚ) (bc : String) (ex : Exec) :
    (∀ (funds : ℚ) (idx : ℕ) (rows : List (List String)) (p : PlacedOrder),
      p ∈ ordersPlaced (runRows minN bc ex funds idx rows).1 → minN ≤ p.notional) ∧
    (∀ (funds : ℚ) (idx : ℕ) (row : List String) (rest : List (List String)) (r : SkipReason),
      processRow minN bc ex funds idx row = .skip r →
      (runRows minN bc ex funds idx (row :: rest)).2 =
        (runRows minN bc ex funds (idx + 1) rest).2 ∧
      (runRows minN bc ex funds idx (row :: rest)).1 =
        RowOutcome.skipped idx r :: (runRows minN bc ex funds (idx + 1) rest).1) := by
  constructor
  · intro funds idx rows p hp
    exact runRows_placed_min minN bc ex rows idx funds p hp
  · intro funds idx row rest r hstep
    rw [runRows_cons_skip hstep]
    exact ⟨rfl, rfl⟩

unseal Rat.add Rat.mul Rat.inv Rat.sub in
/-- Witness for C5 on a concrete placed order with minimum 5. -/
theorem C5_min_notional_witness :
    pA ∈ ordersPlaced (runRows 5 "USD" exOK 1000 2 [rowA]).1 ∧ (5 : ℚ) ≤ pA.notional := by
  have hm : pA ∈ ordersPlaced (runRows 5 "USD" exOK 1000 2 [rowA]).1 := by decide
  exact ⟨hm, (C5_min_notional 5 "USD" exOK).1 1000 2 [rowA] pA hm⟩

/-- C6: a failed order leaves remaining funds exactly as they were,
records the failure with the executor's error detail, and the scan
continues; a successful order is recorded with the executor's order
identifier and its notional is deducted. -/
theorem C6_executor_outcomes (minN : ℚ) (bc : String) (ex : Exec) (funds : ℚ) (idx : ℕ)
    (row : List String) (rest : List (List String)) :
    (∀ e, processRow minN bc ex funds idx row = .failed e →
      (∃ ms amt, ex idx ms amt = .error e) ∧
      runRows minN bc ex funds idx (row :: rest) =
        (RowOutcome.failed idx e :: (runRows minN bc ex funds (idx + 1) rest).1,
          (runRows minN bc ex funds (idx + 1) rest).2)) ∧
    (∀ p, processRow minN bc ex funds idx row = .placed p →
      ex idx p.market_symbol p.amount = .ok p.order_id ∧
      runRows minN bc ex funds idx (row :: rest) =
        (RowOutcome.placed p :: (runRows minN bc ex (funds - p.notional) (idx + 1) rest).1,
          (runRows minN bc ex (funds - p.notional) (idx + 1) rest).2)) := by
  constructor
  · intro e h
    obtain ⟨pr, hv, hf, hm, hex⟩ := processRow_failed_eq h
    exact ⟨⟨_, _, hex⟩, runRows_cons_failed h⟩
  · intro p h
    obtain ⟨pr, hv, hf, hm, hp, hex⟩ := processRow_placed_eq h
    refine ⟨?_, runRows_cons_placed h⟩
    have hms : p.market_symbol = pr.symbol ++ "/" ++ bc := by rw [hp]
    have hamt : p.amount =
        min (funds * pr.tier_fraction * pr.icon_mult * pr.ma_ratio * pr.sent_mult) funds
          / pr.price := by
      rw [hp]
    rw [hms, hamt]
    exact hex

unseal Rat.add Rat.mul Rat.inv Rat.sub in
/-- Witness for C6 with an executor that rejects the order: the row is
recorded as failed and the pool of 1000 is untouched. -/
theorem C6_executor_outcomes_witness :
    processRow 5 "USD" exFail 1000 2 rowA = .failed "insufficient funds" ∧
    (∃ ms amt, exFail 2 ms amt = .error "insufficient funds") ∧
    runRows 5 "USD" exFail 1000 2 [rowA] =
      ([RowOutcome.failed 2 "insufficient funds"], 1000) := by
  have hstep : processRow 5 "USD" exFail 1000 2 rowA = .failed "insufficient funds" := by
    decide
  obtain ⟨hex, hrun⟩ :=
    (C6_executor_outcomes 5 "USD" exFail 1000 2 rowA []).1 "insufficient funds" hstep
  exact ⟨hstep, hex, by rw [hrun]; simp [runRows]⟩

/-- C7: a row whose sentiment cell parses to nothing or to a
non-positive value is skipped (never bought, never stopping the scan)
and remaining funds are unchanged. -/
theorem C7_sentiment_gate (minN : ℚ) (bc : String) (ex : Exec) (funds : ℚ) (idx : ℕ)
    (row : List String) (rest : List (List String))
    (h : parse_float (some (sentCell row)) = none ∨
      ∃ v, parse_float (some (sentCell row)) = some v ∧ v ≤ 0) :
    ∃ r, processRow minN bc ex funds idx row = .skip r ∧
      runRows minN bc ex funds idx (row :: rest) =
        (RowOutcome.skipped idx r :: (runRows minN bc ex funds (idx + 1) rest).1,
          (runRows minN bc ex funds (idx + 1) rest).2) := by
  have hs : sentiment_multiplier (some (sentCell row)) = none :=
    (sentiment_multiplier_none_iff (sentCell row)).mpr h
  obtain ⟨r, hr⟩ := validateRow_sent_none hs
  have hstep : processRow minN bc ex funds idx row = .skip r :=
    processRow_of_validate_error hr
  exact ⟨r, hstep, runRows_cons_skip hstep⟩

/-- Witness for C7 on a row whose sentiment cell is empty. -/
theorem C7_sentiment_gate_witness :
    ∃ r, processRow 5 "USD" exOK 1000 2 rowNoSent = StepResult.skip r ∧
      runRows 5 "USD" exOK 1000 2 [rowNoSent] =
        (RowOutcome.skipped 2 r :: (runRows 5 "USD" exOK 1000 3 []).1,
          (runRows 5 "USD" exOK 1000 3 []).2) :=
  C7_sentiment_gate 5 "USD" exOK 1000 2 rowNoSent [] (Or.inl (by decide))

unseal Rat.add Rat.mul Rat.inv Rat.sub in
/-- C8 (Scenario A): a pool of 1000 and a row with tier 0.05 and all
multipliers 1 places an order of exactly 50, leaving 950. -/
theorem C8_scenarioA :
    run 5 "USD" exOK 1000 [rowA] = ([RowOutcome.placed pA], 950) ∧
    pA.notional = 50 := by
  decide

/-- C9: the numeric field parser is total (an absent value is a value,
not a fault) and maps empty strings, whitespace-only strings and
non-numeric text identically to none. -/
theorem C9_parse_float_total :
    (∀ s : String, parse_float (some s) = none ∨ ∃ q, parse_float (some s) = some q) ∧
    parse_float none = none ∧
    (∀ s : String, pyStrip s = "" → parse_float (some s) = none) ∧
    (∀ s : String, pyFloat (pyStrip s) = none → parse_float (some s) = none) := by
  refine ⟨fun s => ?_, rfl, fun s h => ?_, fun s h => ?_⟩
  · cases hp : parse_float (some s) with
    | none => exact Or.inl rfl
    | some q => exact Or.inr ⟨q, rfl⟩
  · simp [parse_float, h]
  · by_cases he : pyStrip s = ""
    · simp [parse_float, he]
    · simp [parse_float, he, h]

/-- Witness for C9 on a whitespace-only string and on non-numeric
text. -/
theorem C9_parse_float_total_witness :
    parse_float (some "   ") = none ∧ parse_float (some "12abc") = none :=
  ⟨C9_parse_float_total.2.2.1 "   " (by decide),
    C9_parse_float_total.2.2.2 "12abc" (by decide)⟩

/-- C10: a raw row with at most 15 columns (indices 0 to 14, hence no
sentiment column at index 15) is rejected up front as having too few
columns, so the empty-string fallback for the sentiment cell is never
taken on a row that is evaluated further. -/
theorem C10_columns_guard (minN : ℚ) (bc : String) (ex : Exec) (funds : ℚ) (idx : ℕ)
    (row : List String) (rest : List (List String)) (h : row.length ≤ 15) :
    processRow minN bc ex funds idx row = .skip SkipReason.tooFewColumns ∧
    runRows minN bc ex funds idx (row :: rest) =
      (RowOutcome.skipped idx SkipReason.tooFewColumns ::
        (runRows minN bc ex funds (idx + 1) rest).1,
        (runRows minN bc ex funds (idx + 1) rest).2) ∧
    (∀ row2 : List String, 15 < row2.length → sentCell row2 = row2.getD 15 "") := by
  have hv : validateRow row = .error .tooFewColumns := by
    simp [validateRow, h]
  have hstep : processRow minN bc ex funds idx row = .skip SkipReason.tooFewColumns :=
    processRow_of_validate_error hv
  exact ⟨hstep, runRows_cons_skip hstep, fun row2 h2 => by simp [sentCell, h2]⟩

/-- Witness for C10 on a one-column row. -/
theorem C10_columns_guard_witness :
    processRow 5 "USD" exOK 1000 2 ["ETH"] = StepResult.skip SkipReason.tooFewColumns ∧
    (["ETH"] : List String).length ≤ 15 :=
  ⟨(C10_columns_guard 5 "USD" exOK 1000 2 ["ETH"] [] (by decide)).1, by decide⟩

end KrakenBuyer
